import Mathlib

/-!
Verification development for the epub_reader package-resolution and
navigation core.  The Rust sources (src/epub/mod.rs, src/navigation.rs,
src/metadata.rs, src/errors.rs) are shallowly embedded below: archive
paths and XML text are modelled as lists of characters, Rust `Result`
becomes `Except`, the `HashMap` manifest becomes an association list
(lookup finds the most recent insertion, matching overwrite-on-insert),
and the zip archive plus the external XML/HTML parsing libraries
(roxmltree, scraper) are abstracted as function parameters, while every
routine belonging to the repository itself is translated directly.
-/

namespace EpubReader

/-- Rust `&str`/`String` values are modelled as lists of characters. -/
abbrev Str := List Char

/-- Conversion from Lean string literals to the character-list model. -/
def str (s : String) : Str := s.data

/-- Rust `path_str.split('/')`: splits a string on every slash, keeping
empty pieces (so the result is never empty). -/
def splitSlash : Str → List Str
  | [] => [[]]
  | c :: cs =>
    if c = '/' then [] :: splitSlash cs
    else
      match splitSlash cs with
      | [] => [[c]]
      | r :: rs => (c :: r) :: rs

/-- Rust `components.join("/")`. -/
def joinSlash : List Str → Str
  | [] => []
  | [a] => a
  | a :: b :: rest => a ++ '/' :: joinSlash (b :: rest)

/-- One step of the component loop of `normalize_path_simple`
(src/epub/mod.rs lines 372-383).  The accumulator keeps the `Vec` of
components in reverse order: Rust `push` is cons, `pop` is tail and
`last()` is `head?`. -/
def collapseStep (acc : List Str) (comp : Str) : List Str :=
  if comp = [] ∨ comp = ['.'] then acc
  else if comp = ['.', '.'] then
    if acc ≠ [] ∧ acc.head? ≠ some ['.', '.'] then acc.tail else acc
  else comp :: acc

/-- `normalize_path_simple` (src/epub/mod.rs lines 367-393): replaces
backslashes by slashes, splits on `/`, drops empty and `.` components,
collapses `..` against the previous component without underflowing,
preserves a leading `/` of the original input, and rejoins. -/
def normalize_path_simple (p : Str) : Str :=
  let normalized : Str := p.map (fun c => if c = '\\' then '/' else c)
  let comps : List Str := ((splitSlash normalized).foldl collapseStep []).reverse
  let pre : Str := if p.head? = some '/' then ['/'] else []
  if comps = [] then pre else pre ++ joinSlash comps

/-- Rust `Path::parent().unwrap_or(Path::new(""))` on the paths this
program produces (no trailing slash): everything before the last `/`,
`"/"` for a top-level absolute path, `""` when there is no parent. -/
def parentDir (p : Str) : Str :=
  if '/' ∈ p then
    let pre := ((p.reverse.dropWhile (fun c => ¬ (c = '/'))).drop 1).reverse
    if pre = [] then (if p.length ≤ 1 then [] else ['/']) else pre
  else []

/-- Rust `PathBuf::push` of a relative component: inserts a `/`
separator unless the current path is empty or already ends in `/`. -/
def pushComponent (cur comp : Str) : Str :=
  if cur = [] then comp
  else if cur.getLast? = some '/' then cur ++ comp
  else cur ++ '/' :: comp

/-- Rust `PathBuf::pop`: removes the last component; a no-op on the
empty path and on the root `/`. -/
def popComponent (cur : Str) : Str :=
  if cur = [] ∨ cur = ['/'] then cur else parentDir cur

/-- `resolve_relative_path` (src/epub/mod.rs lines 344-362): a
reference starting with `/` is taken from the archive root with all
leading slashes stripped; otherwise the fragment (`#...`) is dropped
and the components are applied to the base directory with `.` as no-op
and `..` popping one component. -/
def resolve_relative_path (base : Str) (rel : Str) : Str :=
  if rel.head? = some '/' then rel.dropWhile (fun c => c = '/')
  else
    let noFrag := rel.takeWhile (fun c => ¬ (c = '#'))
    (splitSlash noFrag).foldl
      (fun cur comp =>
        if comp = [] ∨ comp = ['.'] then cur
        else if comp = ['.', '.'] then popComponent cur
        else pushComponent cur comp)
      base

/-- `build_full_path` (src/epub/mod.rs lines 329-338): joins the root
directory with a root-directory-relative href and normalizes; this is
the spec's `join_root`. -/
def build_full_path (root_path relative_href : Str) : Str :=
  if root_path = [] then normalize_path_simple relative_href
  else normalize_path_simple (root_path ++ '/' :: relative_href)

/-- Rust `full_path.replace("//", "/")` (src/navigation.rs line 99):
replaces every non-overlapping occurrence of `//` by `/`, scanning
left to right. -/
def replaceDoubleSlash : Str → Str
  | '/' :: '/' :: rest => '/' :: replaceDoubleSlash rest
  | c :: rest => c :: replaceDoubleSlash rest
  | [] => []

/-! ## XML document model (roxmltree trees) -/
mutual
/-- A parsed XML node (roxmltree `Node`): an element with a local tag
name, attributes and children, or a text node. -/
inductive XNode where
  | element (tagName : Str) (attrs : List (Str × Str)) (children : XNodes)
  | textNode (content : Str)
/-- The children of an element, as a mutually inductive list so that
the tree walks below are structurally recursive. -/
inductive XNodes where
  | nil
  | cons (head : XNode) (tail : XNodes)
end

def XNodes.toList : XNodes → List XNode
  | .nil => []
  | .cons x xs => x :: xs.toList

def XNodes.ofList : List XNode → XNodes
  | [] => .nil
  | x :: xs => .cons x (XNodes.ofList xs)

/-- roxmltree `tag_name().name()`: the local name of an element; text
nodes report the empty name. -/
def XNode.nameOf : XNode → Str
  | .element n _ _ => n
  | .textNode _ => []

/-- Attribute lookup over the attribute list (first match wins). -/
def findAttr : List (Str × Str) → Str → Option Str
  | [], _ => none
  | (k, v) :: rest, key => if k = key then some v else findAttr rest key

/-- roxmltree `node.attribute(key)`. -/
def XNode.attr : XNode → Str → Option Str
  | .element _ attrs _, key => findAttr attrs key
  | .textNode _, _ => none

/-- roxmltree `node.children()` as a plain list. -/
def XNode.childList : XNode → List XNode
  | .element _ _ cs => cs.toList
  | .textNode _ => []

/-- roxmltree `node.is_element()`. -/
def XNode.isElem : XNode → Bool
  | .element _ _ _ => true
  | .textNode _ => false

/-- roxmltree `node.text()`: for an element, the content of its first
child if that child is a text node; for a text node its own content. -/
def XNode.textOf : XNode → Option Str
  | .textNode s => some s
  | .element _ _ cs =>
    match cs.toList with
    | .textNode s :: _ => some s
    | _ => none

mutual
/-- roxmltree `descendants()` restricted to a subtree: the node itself
followed by all descendants in document order. -/
def XNode.descendants : XNode → List XNode
  | .textNode s => [.textNode s]
  | .element n a cs => .element n a cs :: XNodes.descList cs
def XNodes.descList : XNodes → List XNode
  | .nil => []
  | .cons x xs => x.descendants ++ XNodes.descList xs
end

/-- Rust `char::is_whitespace` restricted to the ASCII whitespace the
program's documents use. -/
def isWS (c : Char) : Bool := c = ' ' ∨ c = '\t' ∨ c = '\n' ∨ c = '\r'

/-- Rust `str::trim`. -/
def trimStr (s : Str) : Str :=
  ((s.dropWhile isWS).reverse.dropWhile isWS).reverse

/-! ## Parsed-record data model (src/navigation.rs, src/epub/mod.rs) -/

/-- `TocEntry` (src/navigation.rs lines 7-14). -/
structure TocEntry where
  label : Str
  href : Str
  id : Option Str
deriving DecidableEq

/-- `ManifestItem` (src/epub/mod.rs lines 18-26). -/
structure ManifestItem where
  id : Str
  href : Str
  media_type : Str
  properties : Option Str
deriving DecidableEq

/-- `EpubError` (src/errors.rs); the payloads of the wrapped library
errors are modelled as strings. -/
inductive EpubError where
  | IoErr (msg : Str)
  | ZipErr (msg : Str)
  | XmlErr (msg : Str)
  | MissingContainerXml
  | MissingRootfileElement
  | MissingFullPathAttribute
  | OpfNotFound (p : Str)
  | MissingPackageElement
  | MissingManifestElement
  | MissingSpineElement
  | MissingMetadataElement
  | ManifestItemNotFound (id : Str)
  | TocNotFound
  | ContentReadError (msg : Str)
  | InvalidChapterIndex (i : Nat)
  | InvalidPath (p : Str)
  | TocParseError (msg : Str)
  | XmlTextExtractionError
deriving DecidableEq

/-- Association-list model of the `HashMap` manifest; `insert` is cons
at the front, so this lookup sees the most recent insertion first,
matching `HashMap` overwrite-on-insert. -/
def lookupStr {α : Type} : List (Str × α) → Str → Option α
  | [], _ => none
  | (k, v) :: rest, key => if k = key then some v else lookupStr rest key

/-! ## NCX parsing (src/epub/mod.rs lines 272-321) -/

/-- The label computation inside `parse_navpoints`: starts as
"Sin etiqueta"; if a `navLabel` child with a `text` child exists, the
trimmed text of that `text` element (or `""` when it has none). -/
def navPointLabel (node : XNode) : Str :=
  match (node.childList).find? (fun c => c.nameOf == str "navLabel") with
  | some lbl =>
    match (lbl.childList).find? (fun c => c.nameOf == str "text") with
    | some t => trimStr ((t.textOf).getD [])
    | none => str "Sin etiqueta"
  | none => str "Sin etiqueta"

/-- The entry a single `navPoint` pushes (src/epub/mod.rs lines
302-316): requires a `content` child with a `src` attribute, a
non-empty label and a non-empty src; the stored href is
`build_full_path root (resolve_relative_path base src)`. -/
def navPointEntryList (node : XNode) (base root : Str) : List TocEntry :=
  match (node.childList).find? (fun c => c.nameOf == str "content") with
  | some contentNode =>
    match contentNode.attr (str "src") with
    | some srcAttr =>
      if ¬ (navPointLabel node = []) ∧ ¬ (srcAttr = []) then
        [{ label := navPointLabel node,
           href := build_full_path root (resolve_relative_path base srcAttr),
           id := node.attr (str "id") }]
      else []
    | none => []
  | none => []

mutual
/-- Contribution of one child met by the `parse_navpoints` scan: a
`navPoint` element yields its own entry (if valid) followed by the
entries of its recursively scanned children; every other node yields
nothing.  The Rust `&mut Vec` accumulation is modelled by returning
the appended entries. -/
def navPointContrib (base root : Str) : XNode → List TocEntry
  | .textNode _ => []
  | .element n attrs cs =>
    if n = str "navPoint" then
      navPointEntryList (.element n attrs cs) base root ++ navPointsList base root cs
    else []
/-- The scan of `parse_navpoints` over a child list. -/
def navPointsList (base root : Str) : XNodes → List TocEntry
  | .nil => []
  | .cons x xs => navPointContrib base root x ++ navPointsList base root xs
end

/-- `parse_navpoints` (src/epub/mod.rs lines 289-321): scans the
children of `parent`. -/
def parse_navpoints (parent : XNode) (base root : Str) : List TocEntry :=
  navPointsList base root
    (match parent with
     | .element _ _ cs => cs
     | .textNode _ => .nil)

/-- `parse_ncx` (src/epub/mod.rs lines 273-285); `xmlParse` abstracts
roxmltree `Document::parse`. -/
def parse_ncx (xmlParse : Str → Except Str XNode)
    (content root ncx_file_path : Str) : Except EpubError (List TocEntry) :=
  match xmlParse content with
  | .error e => .error (.XmlErr e)
  | .ok doc =>
    match (doc.descendants).find? (fun n => n.nameOf == str "navMap") with
    | none => .error (.TocParseError (str "No se encontró <navMap> en NCX"))
    | some navMap => .ok (parse_navpoints navMap (parentDir ncx_file_path) root)

def sampleNavMap : XNode :=
  .element (str "navMap") [] (XNodes.ofList
    [ .element (str "navPoint") [(str "id", str "np1")] (XNodes.ofList
        [ .element (str "navLabel") [] (XNodes.ofList
            [ .element (str "text") [] (XNodes.ofList [ .textNode (str "Intro") ]) ]),
          .element (str "content") [(str "src", str "ch1.xhtml")] XNodes.nil ]) ])

/-! ## EPUB3 nav parsing (src/epub/mod.rs lines 237-270) -/

/-- An anchor element selected by the scraper CSS query
`nav[epub|type="toc"] ol li a` (fallback `nav[type="toc"] ol li a`):
its `href` attribute, the concatenation of its text descendants, and
its `id` attribute. -/
structure Anchor where
  href : Option Str
  textContent : Str
  id : Option Str
deriving DecidableEq

/-- `parse_nav_xhtml` (src/epub/mod.rs lines 237-270); `selectA`
abstracts scraper's HTML parsing plus selector construction and
matching: an error stands for the selector-construction failure the
source maps to `TocParseError`, and a success yields the matched
anchors in document order. -/
def parse_nav_xhtml (selectA : Str → Except Str (List Anchor))
    (content root nav_file_path : Str) : Except EpubError (List TocEntry) :=
  match selectA content with
  | .error e => .error (.TocParseError e)
  | .ok anchors =>
    .ok (anchors.filterMap (fun a =>
      match a.href with
      | none => none
      | some href_attr =>
        if ¬ (trimStr a.textContent = []) ∧ ¬ (href_attr = []) then
          some { label := trimStr a.textContent,
                 href := build_full_path root
                   (resolve_relative_path (parentDir nav_file_path) href_attr),
                 id := a.id }
        else none))

/-! ## Metadata parsing (src/metadata.rs) -/

/-- `Metadata` (src/metadata.rs lines 5-14). -/
structure Metadata where
  title : Option Str
  creator : Option Str
  language : Option Str
  identifier : Option Str
  publisher : Option Str
  date : Option Str
deriving DecidableEq

/-- One iteration of the loop in `Metadata::parse` (src/metadata.rs
lines 21-32): a recognized local name overwrites the corresponding
field with the element's text (possibly `none`). -/
def metadataStep (md : Metadata) (child : XNode) : Metadata :=
  if child.nameOf = str "title" then { md with title := child.textOf }
  else if child.nameOf = str "creator" then { md with creator := child.textOf }
  else if child.nameOf = str "language" then { md with language := child.textOf }
  else if child.nameOf = str "identifier" then { md with identifier := child.textOf }
  else if child.nameOf = str "publisher" then { md with publisher := child.textOf }
  else if child.nameOf = str "date" then { md with date := child.textOf }
  else md

/-- `Metadata::parse` (src/metadata.rs lines 18-34): folds the element
children of the `metadata` node over `metadataStep`, starting from the
all-`none` default; it never fails. -/
def Metadata.parse (metadataNode : XNode) : Except EpubError Metadata :=
  .ok (((metadataNode.childList).filter XNode.isElem).foldl metadataStep
    ⟨none, none, none, none, none, none⟩)

/-! ## Manifest and spine parsing (src/epub/mod.rs lines 160-180) -/

/-- The loop of `parse_manifest` with its accumulator: each `item`
child must carry `id`, `href` and `media-type` attributes (else
`XmlTextExtractionError`); the stored href is the raw attribute.
`HashMap::insert` is modelled by cons at the front. -/
def parse_manifest_items : List XNode → List (Str × ManifestItem) →
    Except EpubError (List (Str × ManifestItem))
  | [], acc => .ok acc
  | n :: rest, acc =>
    if n.nameOf = str "item" then
      match n.attr (str "id"), n.attr (str "href"), n.attr (str "media-type") with
      | some id, some href, some mt =>
        parse_manifest_items rest
          ((id, { id := id, href := href, media_type := mt,
                  properties := n.attr (str "properties") }) :: acc)
      | _, _, _ => .error .XmlTextExtractionError
    else parse_manifest_items rest acc

/-- `parse_manifest` (src/epub/mod.rs lines 160-171). -/
def parse_manifest (manifest_node : XNode) : Except EpubError (List (Str × ManifestItem)) :=
  parse_manifest_items manifest_node.childList []

/-- The loop of `parse_spine` (src/epub/mod.rs lines 173-180): each
`itemref` child must carry an `idref` attribute. -/
def parse_spine_items : List XNode → Except EpubError (List Str)
  | [] => .ok []
  | n :: rest =>
    if n.nameOf = str "itemref" then
      match n.attr (str "idref") with
      | some idref =>
        match parse_spine_items rest with
        | .ok ids => .ok (idref :: ids)
        | .error e => .error e
      | none => .error .XmlTextExtractionError
    else parse_spine_items rest

/-- `parse_spine` (src/epub/mod.rs lines 173-180). -/
def parse_spine (spine_node : XNode) : Except EpubError (List Str) :=
  parse_spine_items spine_node.childList

/-! ## TOC discovery (src/epub/mod.rs lines 182-233) -/

/-- The EPUB3 branch of `parse_toc` (lines 194-207): find a manifest
value with `properties == Some("nav")`, read its root-joined href, run
the nav parser, and keep a non-empty result; every failure along the
way degrades to `none`. -/
def tocFromNav (readEntry : Str → Except EpubError Str)
    (selectA : Str → Except Str (List Anchor))
    (manifest : List (Str × ManifestItem)) (root : Str) : Option (List TocEntry) :=
  match (manifest.map Prod.snd).find? (fun item => item.properties == some (str "nav")) with
  | none => none
  | some navItem =>
    match readEntry (build_full_path root navItem.href) with
    | .error _ => none
    | .ok navContent =>
      match parse_nav_xhtml selectA navContent root (build_full_path root navItem.href) with
      | .ok toc => if toc = [] then none else some toc
      | .error _ => none

/-- The EPUB2 branch of `parse_toc` (lines 210-227): take the spine's
`toc` attribute as a manifest id, read the item's root-joined href,
run the NCX parser, and keep a non-empty result; every failure along
the way degrades to `none`. -/
def tocFromNcx (readEntry : Str → Except EpubError Str)
    (xmlParse : Str → Except Str XNode)
    (manifest : List (Str × ManifestItem)) (root : Str)
    (spineNode : XNode) : Option (List TocEntry) :=
  match spineNode.attr (str "toc") with
  | none => none
  | some tocId =>
    match lookupStr manifest tocId with
    | none => none
    | some ncxItem =>
      match readEntry (build_full_path root ncxItem.href) with
      | .error _ => none
      | .ok ncxContent =>
        match parse_ncx xmlParse ncxContent root (build_full_path root ncxItem.href) with
        | .ok toc => if toc = [] then none else some toc
        | .error _ => none

/-- `parse_toc` (src/epub/mod.rs lines 182-233): the nav strategy,
then the NCX strategy, then the empty TOC; the early `return Ok(toc)`
statements of the source are the `some` cases here, and the function
ends in `Ok(Vec::new())`. -/
def parse_toc (readEntry : Str → Except EpubError Str)
    (xmlParse : Str → Except Str XNode)
    (selectA : Str → Except Str (List Anchor))
    (manifest : List (Str × ManifestItem)) (root : Str)
    (spineNode : XNode) : Except EpubError (List TocEntry) :=
  match tocFromNav readEntry selectA manifest root with
  | some toc => .ok toc
  | none =>
    match tocFromNcx readEntry xmlParse manifest root spineNode with
    | some toc => .ok toc
    | none => .ok []

/-! ## Navigator (src/navigation.rs) -/

/-- `Navigator` (src/navigation.rs lines 17-29). -/
structure Navigator where
  spine_ids : List Str
  current_spine_index : Nat
  toc : List TocEntry
  manifest : List (Str × ManifestItem)
  root_path : Str
deriving DecidableEq

/-- `Navigator::new` (src/navigation.rs lines 32-45): the cursor
starts at spine index 0. -/
def Navigator.new (spine_ids : List Str) (toc : List TocEntry)
    (manifest : List (Str × ManifestItem)) (root_path : Str) : Navigator :=
  { spine_ids := spine_ids, current_spine_index := 0, toc := toc,
    manifest := manifest, root_path := root_path }

/-- Rust `Vec::get`. -/
def listGet? {α : Type} : List α → Nat → Option α
  | [], _ => none
  | a :: _, 0 => some a
  | _ :: rest, n + 1 => listGet? rest n

/-- `Navigator::next` (src/navigation.rs lines 48-55); the mutation of
`self` is modelled by returning the new state with the `bool`. -/
def Navigator.next (nav : Navigator) : Navigator × Bool :=
  if nav.current_spine_index + 1 < nav.spine_ids.length then
    ({ nav with current_spine_index := nav.current_spine_index + 1 }, true)
  else (nav, false)

/-- `Navigator::prev` (src/navigation.rs lines 58-65). -/
def Navigator.prev (nav : Navigator) : Navigator × Bool :=
  if nav.current_spine_index > 0 then
    ({ nav with current_spine_index := nav.current_spine_index - 1 }, true)
  else (nav, false)

/-- `Navigator::goto` (src/navigation.rs lines 68-75), 1-based. -/
def Navigator.goto (nav : Navigator) (index_one_based : Nat) : Navigator × Bool :=
  if index_one_based > 0 ∧ index_one_based ≤ nav.spine_ids.length then
    ({ nav with current_spine_index := index_one_based - 1 }, true)
  else (nav, false)

/-- `Navigator::current_chapter_id` (src/navigation.rs lines 78-80). -/
def Navigator.current_chapter_id (nav : Navigator) : Option Str :=
  listGet? nav.spine_ids nav.current_spine_index

/-- `Navigator::current_chapter_href` (src/navigation.rs lines
83-100): spine lookup, manifest lookup, then the root join followed by
`replace("//", "/")`. -/
def Navigator.current_chapter_href (nav : Navigator) : Except EpubError Str :=
  match nav.current_chapter_id with
  | none => .error (.InvalidChapterIndex nav.current_spine_index)
  | some id =>
    match lookupStr nav.manifest id with
    | none => .error (.ManifestItemNotFound id)
    | some manifest_item =>
      .ok (replaceDoubleSlash
        (if nav.root_path = [] then manifest_item.href
         else nav.root_path ++ '/' :: manifest_item.href))

/-- `Navigator::current_position` (src/navigation.rs lines 104-106). -/
def Navigator.current_position (nav : Navigator) : Nat × Nat :=
  (nav.current_spine_index + 1, nav.spine_ids.length)

/-- `Navigator::total_chapters` (src/navigation.rs lines 137-139). -/
def Navigator.total_chapters (nav : Navigator) : Nat :=
  nav.spine_ids.length

/-- `Navigator::get_toc` (src/navigation.rs lines 142-144). -/
def Navigator.get_toc (nav : Navigator) : List TocEntry :=
  nav.toc

/-- `EpubDocument` (src/epub/mod.rs lines 29-44); the zip archive
handle is an opaque type parameter, untouched by the operations
modelled here. -/
structure EpubDocument (A : Type) where
  archive : A
  metadata : Metadata
  manifest : List (Str × ManifestItem)
  spine_ids : List Str
  toc : List TocEntry
  opf_path : Str
  root_path : Str

/-- `EpubDocument::create_navigator` (src/epub/mod.rs lines 117-124). -/
def EpubDocument.create_navigator {A : Type} (doc : EpubDocument A) : Navigator :=
  Navigator.new doc.spine_ids doc.toc doc.manifest doc.root_path

/-- The moves a caller can apply to a `Navigator`. -/
inductive NavOp where
  | nextOp
  | prevOp
  | gotoOp (k : Nat)

def applyOp (nav : Navigator) : NavOp → Navigator
  | .nextOp => nav.next.1
  | .prevOp => nav.prev.1
  | .gotoOp k => (nav.goto k).1

def applyOps (nav : Navigator) (ops : List NavOp) : Navigator :=
  ops.foldl applyOp nav

def navW : Navigator :=
  Navigator.new [str "a", str "b", str "c"] [] [] (str "OEBPS")

def navE : Navigator := Navigator.new [] [] [] (str "OEBPS")

def docW : EpubDocument Unit :=
  { archive := (), metadata := ⟨none, none, none, none, none, none⟩,
    manifest := [], spine_ids := [str "ch1", str "ch2"], toc := [],
    opf_path := str "OEBPS/content.opf", root_path := str "OEBPS" }

/-! ## C2: current_chapter_href -/
def navC2ok : Navigator :=
  Navigator.new [str "ch1"] []
    [(str "ch1", { id := str "ch1", href := str "ch1.xhtml",
                   media_type := str "application/xhtml+xml", properties := none })]
    (str "OEBPS")

def navC2dot : Navigator :=
  Navigator.new [str "ch1"] []
    [(str "ch1", { id := str "ch1", href := str "./ch1.xhtml",
                   media_type := str "application/xhtml+xml", properties := none })]
    (str "OEBPS")

def wNavItem : ManifestItem :=
  { id := str "nav1", href := str "nav.xhtml",
    media_type := str "application/xhtml+xml", properties := some (str "nav") }

def wManifest : List (Str × ManifestItem) := [(str "nav1", wNavItem)]

def wReadEntry : Str → Except EpubError Str :=
  fun p => if p = str "OEBPS/nav.xhtml" then .ok (str "navdoc")
    else .error .MissingContainerXml

def wSelect : Str → Except Str (List Anchor) :=
  fun _ => .ok [{ href := some (str "ch1.xhtml"), textContent := str "Chapter 1", id := none }]

def wXmlParse : Str → Except Str XNode := fun s => .error s

def wSpineNode : XNode := .element (str "spine") [(str "toc", str "ncx")] XNodes.nil

def wToc : List TocEntry :=
  [{ label := str "Chapter 1", href := str "OEBPS/OEBPS/ch1.xhtml", id := none }]

def w3Manifest : List (Str × ManifestItem) :=
  [(str "ch1", { id := str "ch1", href := str "ch1.xhtml",
                 media_type := str "application/xhtml+xml", properties := none })]

def w3ReadEntry : Str → Except EpubError Str := fun _ => .error .MissingContainerXml

def w3XmlParse : Str → Except Str XNode := fun s => .error s

def w3Select : Str → Except Str (List Anchor) := fun _ => .ok []

def w3SpineNode : XNode := .element (str "spine") [] XNodes.nil

/-! ## C7: metadata first vs last occurrence -/

/-- The last element of a list, as an option. -/
def lastOpt {α : Type} : List α → Option α
  | [] => none
  | [a] => some a
  | _ :: b :: t => lastOpt (b :: t)

/-- The text the fold leaves in one metadata field: the text of the
last child whose local name is `nm`, or `prior` when there is none. -/
def lastTextOr (nm : Str) (cs : List XNode) (prior : Option Str) : Option Str :=
  match lastOpt (cs.filterMap (fun c => if c.nameOf = nm then some c.textOf else none)) with
  | some t => t
  | none => prior

def mdNodeTwoTitles : XNode :=
  .element (str "metadata") [] (XNodes.ofList
    [ .element (str "title") [] (XNodes.ofList [ .textNode (str "A") ]),
      .element (str "title") [] (XNodes.ofList [ .textNode (str "B") ]) ])

/-! ## C9: idempotence of normalize_path_simple -/

/-- A segment that survives the component loop: non-empty, not a dot
segment, and free of separators and backslashes. -/
def goodSeg (c : Str) : Prop :=
  c ≠ [] ∧ c ≠ ['.'] ∧ c ≠ ['.', '.'] ∧ '/' ∉ c ∧ '\\' ∉ c

/-! ## C1: where href resolution happens -/

/-- The raw `src` attribute a single `navPoint` contributes, under
exactly the validity conditions of `parse_navpoints`. -/
def navPointSrc (node : XNode) : List Str :=
  match (node.childList).find? (fun c => c.nameOf == str "content") with
  | some contentNode =>
    match contentNode.attr (str "src") with
    | some srcAttr =>
      if ¬ (navPointLabel node = []) ∧ ¬ (srcAttr = []) then [srcAttr] else []
    | none => []
  | none => []

mutual
/-- The raw src attributes the `parse_navpoints` scan meets at one
node, in the order the entries are pushed. -/
def navPointSrcsNode : XNode → List Str
  | .textNode _ => []
  | .element n attrs cs =>
    if n = str "navPoint" then
      navPointSrc (.element n attrs cs) ++ navPointSrcsList cs
    else []
/-- The raw src attributes met along a child list. -/
def navPointSrcsList : XNodes → List Str
  | .nil => []
  | .cons x xs => navPointSrcsNode x ++ navPointSrcsList xs
end

/-- The raw src attributes of the navPoints scanned by
`parse_navpoints` on `parent`. -/
def parse_navpoints_srcs (parent : XNode) : List Str :=
  navPointSrcsList
    (match parent with
     | .element _ _ cs => cs
     | .textNode _ => .nil)

def manifestNodeC1 : XNode :=
  .element (str "manifest") [] (XNodes.ofList
    [ .element (str "item")
        [(str "id", str "ch1"), (str "href", str "ch1.xhtml"),
         (str "media-type", str "application/xhtml+xml")] XNodes.nil ])

/-! ## Navigator theorems -/
theorem applyOp_spine (nav : Navigator) (op : NavOp) :
    (applyOp nav op).spine_ids = nav.spine_ids := by
  cases op <;>
    simp only [applyOp, Navigator.next, Navigator.prev, Navigator.goto] <;>
    split <;> rfl

theorem applyOp_cursor_lt (nav : Navigator) (op : NavOp)
    (h : nav.current_spine_index < nav.spine_ids.length) :
    (applyOp nav op).current_spine_index < nav.spine_ids.length := by
  cases op <;>
    simp only [applyOp, Navigator.next, Navigator.prev, Navigator.goto] <;>
    split <;> dsimp only <;> omega

theorem applyOp_cursor_step (nav : Navigator) (op : NavOp)
    (h : nav.current_spine_index < nav.spine_ids.length) :
    (applyOp nav op).current_spine_index = nav.current_spine_index
      ∨ (applyOp nav op).current_spine_index < nav.spine_ids.length :=
  Or.inr (applyOp_cursor_lt nav op h)

/-- Claim C5: for every Navigator whose cursor is a valid index into a
non-empty spine, any sequence of next/prev/goto operations leaves the
spine unchanged and the cursor a valid 0-based index; moreover each
single operation either leaves the cursor at its prior valid value or
sets it to a valid index.  (The embedded operations are total Lean
functions, mirroring that the Rust code has no panicking path.) -/
theorem navigator_cursor_safety (nav : Navigator) (ops : List NavOp)
    (h : nav.current_spine_index < nav.spine_ids.length) :
    (applyOps nav ops).spine_ids = nav.spine_ids
    ∧ (applyOps nav ops).current_spine_index < (applyOps nav ops).spine_ids.length
    ∧ ∀ (m : Navigator) (op : NavOp), m.current_spine_index < m.spine_ids.length →
        ((applyOp m op).current_spine_index = m.current_spine_index
          ∨ (applyOp m op).current_spine_index < m.spine_ids.length) := by
  have main : ∀ (ops : List NavOp) (nav : Navigator),
      nav.current_spine_index < nav.spine_ids.length →
      (applyOps nav ops).spine_ids = nav.spine_ids
        ∧ (applyOps nav ops).current_spine_index < nav.spine_ids.length := by
    intro ops
    induction ops with
    | nil => intro nav h; exact ⟨rfl, h⟩
    | cons op rest ih =>
      intro nav h
      have hstep : (applyOp nav op).current_spine_index < (applyOp nav op).spine_ids.length := by
        rw [applyOp_spine]; exact applyOp_cursor_lt nav op h
      have hr := ih (applyOp nav op) hstep
      refine ⟨?_, ?_⟩
      · show (applyOps (applyOp nav op) rest).spine_ids = nav.spine_ids
        rw [hr.1, applyOp_spine]
      · show (applyOps (applyOp nav op) rest).current_spine_index < nav.spine_ids.length
        have := hr.2
        rw [applyOp_spine] at this
        exact this
  obtain ⟨h1, h2⟩ := main ops nav h
  exact ⟨h1, by rw [h1]; exact h2, fun m op hm => applyOp_cursor_step m op hm⟩

/-- Witness for C5 at a concrete navigator and operation sequence. -/
theorem navigator_cursor_safety_witness :
    (applyOps navW [NavOp.nextOp, NavOp.gotoOp 9, NavOp.prevOp]).spine_ids = navW.spine_ids
    ∧ (applyOps navW [NavOp.nextOp, NavOp.gotoOp 9, NavOp.prevOp]).current_spine_index
        < (applyOps navW [NavOp.nextOp, NavOp.gotoOp 9, NavOp.prevOp]).spine_ids.length
    ∧ ∀ (m : Navigator) (op : NavOp), m.current_spine_index < m.spine_ids.length →
        ((applyOp m op).current_spine_index = m.current_spine_index
          ∨ (applyOp m op).current_spine_index < m.spine_ids.length) :=
  navigator_cursor_safety navW [NavOp.nextOp, NavOp.gotoOp 9, NavOp.prevOp] (by decide)

/-- Claim C6: with a non-empty spine and `1 <= k <= total_chapters()`,
`goto(k)` succeeds and the position becomes `(k, total_chapters())`
with `total_chapters() = len(spine)`; `goto 0`,
`goto (total_chapters()+1)` and `goto` on an empty spine fail and
leave the navigator unchanged. -/
theorem goto_semantics (nav : Navigator) (k : Nat)
    (hk1 : 1 ≤ k) (hk2 : k ≤ nav.total_chapters) :
    (nav.goto k).2 = true
    ∧ ((nav.goto k).1).current_position = (k, nav.total_chapters)
    ∧ nav.total_chapters = nav.spine_ids.length
    ∧ nav.goto 0 = (nav, false)
    ∧ nav.goto (nav.total_chapters + 1) = (nav, false)
    ∧ (∀ (m : Navigator), m.spine_ids = [] → ∀ j, m.goto j = (m, false)) := by
  refine ⟨?_, ?_, rfl, ?_, ?_, ?_⟩
  · simp only [Navigator.goto, Navigator.total_chapters] at *
    rw [if_pos ⟨hk1, hk2⟩]
  · simp only [Navigator.goto, Navigator.total_chapters, Navigator.current_position] at *
    rw [if_pos ⟨hk1, hk2⟩]
    simp only
    congr 1
    omega
  · simp [Navigator.goto]
  · simp only [Navigator.goto, Navigator.total_chapters]
    rw [if_neg]
    omega
  · intro m hm j
    simp only [Navigator.goto, hm]
    rw [if_neg]
    simp only [List.length_nil]
    omega

/-- Witness for C6 at a concrete navigator and index. -/
theorem goto_semantics_witness :
    (navW.goto 2).2 = true
    ∧ ((navW.goto 2).1).current_position = (2, navW.total_chapters)
    ∧ navW.total_chapters = navW.spine_ids.length
    ∧ navW.goto 0 = (navW, false)
    ∧ navW.goto (navW.total_chapters + 1) = (navW, false)
    ∧ (∀ (m : Navigator), m.spine_ids = [] → ∀ j, m.goto j = (m, false)) :=
  goto_semantics navW 2 (by decide) (by decide)

/-- Claim C8: with an empty spine every position query fails:
`current_chapter_href` returns the `InvalidChapterIndex` error,
`current_chapter_id` returns no value, and `current_position` reports
a 1-based position strictly above the total `0`, hence not a valid
position. -/
theorem empty_spine_queries_fail (nav : Navigator) (h : nav.spine_ids = []) :
    nav.current_chapter_href = .error (.InvalidChapterIndex nav.current_spine_index)
    ∧ nav.current_chapter_id = none
    ∧ (nav.current_position).2 < (nav.current_position).1
    ∧ (nav.current_position).2 = 0 := by
  have hid : nav.current_chapter_id = none := by
    unfold Navigator.current_chapter_id
    rw [h]
    cases nav.current_spine_index <;> rfl
  refine ⟨?_, hid, ?_, ?_⟩
  · unfold Navigator.current_chapter_href
    rw [hid]
  · simp [Navigator.current_position, h]
  · simp [Navigator.current_position, h]

/-- Witness for C8 at a concrete empty-spine navigator. -/
theorem empty_spine_queries_fail_witness :
    navE.current_chapter_href = .error (.InvalidChapterIndex navE.current_spine_index)
    ∧ navE.current_chapter_id = none
    ∧ (navE.current_position).2 < (navE.current_position).1
    ∧ (navE.current_position).2 = 0 :=
  empty_spine_queries_fail navE rfl

theorem listGet?_zero_head {α : Type} (l : List α) : listGet? l 0 = l.head? := by
  cases l <;> rfl

/-- Claim C10: a freshly created Navigator starts at spine index 0:
`create_navigator` yields cursor 0, and with a non-empty spine the
initial `current_position` is `(1, total_chapters)` and
`current_chapter_id` is the first spine id. -/
theorem create_navigator_initial {A : Type} (doc : EpubDocument A)
    (_h : doc.spine_ids ≠ []) :
    (doc.create_navigator).current_spine_index = 0
    ∧ (doc.create_navigator).current_position = (1, doc.spine_ids.length)
    ∧ (doc.create_navigator).current_chapter_id = doc.spine_ids.head? := by
  refine ⟨rfl, rfl, ?_⟩
  unfold EpubDocument.create_navigator Navigator.new Navigator.current_chapter_id
  exact listGet?_zero_head doc.spine_ids

/-- Witness for C10 at a concrete document. -/
theorem create_navigator_initial_witness :
    (docW.create_navigator).current_spine_index = 0
    ∧ (docW.create_navigator).current_position = (1, docW.spine_ids.length)
    ∧ (docW.create_navigator).current_chapter_id = docW.spine_ids.head? :=
  create_navigator_initial docW (by decide)

/-- Claim C2 (amended): `current_chapter_href` fails with
`InvalidChapterIndex` on an empty spine and with
`ManifestItemNotFound` when the spine id at the cursor has no manifest
entry; otherwise it returns `root_dir + "/" + href` (just `href` when
`root_dir` is empty) with every `//` occurrence replaced by `/` — not
the normalize of `join_root` — and the spec's example
(`OEBPS/content.opf`, item `ch1` with href `ch1.xhtml`, spine `[ch1]`)
still yields `OEBPS/ch1.xhtml`. -/
theorem current_chapter_href_behavior (nav : Navigator) :
    (nav.spine_ids = [] →
      nav.current_chapter_href = .error (.InvalidChapterIndex nav.current_spine_index))
    ∧ (∀ id, nav.current_chapter_id = some id → lookupStr nav.manifest id = none →
        nav.current_chapter_href = .error (.ManifestItemNotFound id))
    ∧ (∀ id item, nav.current_chapter_id = some id →
        lookupStr nav.manifest id = some item →
        nav.current_chapter_href = .ok (replaceDoubleSlash
          (if nav.root_path = [] then item.href
           else nav.root_path ++ '/' :: item.href)))
    ∧ navC2ok.current_chapter_href = .ok (str "OEBPS/ch1.xhtml") := by
  refine ⟨?_, ?_, ?_, rfl⟩
  · intro h
    have hid : nav.current_chapter_id = none := by
      unfold Navigator.current_chapter_id
      rw [h]
      cases nav.current_spine_index <;> rfl
    unfold Navigator.current_chapter_href
    rw [hid]
  · intro id hid hlook
    unfold Navigator.current_chapter_href
    simp only [hid]
    rw [hlook]
  · intro id item hid hlook
    unfold Navigator.current_chapter_href
    simp only [hid]
    rw [hlook]

/-- Witness for C2's amended theorem at the concrete navigator of the
spec's example. -/
theorem current_chapter_href_behavior_witness :
    navC2ok.current_chapter_href = .ok (replaceDoubleSlash
      (if navC2ok.root_path = [] then (str "ch1.xhtml")
       else navC2ok.root_path ++ '/' :: (str "ch1.xhtml"))) :=
  (current_chapter_href_behavior navC2ok).2.2.1 (str "ch1")
    { id := str "ch1", href := str "ch1.xhtml",
      media_type := str "application/xhtml+xml", properties := none }
    rfl rfl

/-- Counterexample to C2 as stated: with manifest href `./ch1.xhtml`
and root `OEBPS`, the code returns `OEBPS/./ch1.xhtml` while
`join_root` (the code's `build_full_path`: concatenate then normalize)
yields `OEBPS/ch1.xhtml`, so `current_chapter_href` does not join
"exactly as join_root does". -/
theorem current_chapter_href_not_join_root :
    navC2dot.current_chapter_href = .ok (str "OEBPS/./ch1.xhtml")
    ∧ build_full_path navC2dot.root_path (str "./ch1.xhtml") = str "OEBPS/ch1.xhtml"
    ∧ ¬ (str "OEBPS/./ch1.xhtml" = str "OEBPS/ch1.xhtml") := by
  refine ⟨rfl, by decide, by decide⟩

/-! ## C3 and C4: TOC discovery -/

/-- Claim C3: `parse_toc` returns `Ok` for every archive, manifest,
root directory and spine element, whatever the abstracted XML/HTML
parsers do — TOC discovery can never make `open` fail once metadata,
manifest and spine have parsed (step 6 of `open` only propagates a
`parse_toc` error, and there is none).  In particular a package
lacking both a nav-marked manifest item and a resolvable NCX (no
`toc` attribute on the spine, or its id absent from the manifest, or
the referenced entry unreadable) yields the empty TOC sequence. -/
theorem parse_toc_never_fails (readEntry : Str → Except EpubError Str)
    (xmlParse : Str → Except Str XNode)
    (selectA : Str → Except Str (List Anchor))
    (manifest : List (Str × ManifestItem)) (root : Str) (spineNode : XNode) :
    (∃ l, parse_toc readEntry xmlParse selectA manifest root spineNode = .ok l)
    ∧ ((manifest.map Prod.snd).find?
          (fun item => item.properties == some (str "nav")) = none →
        (spineNode.attr (str "toc") = none
          ∨ (∃ tocId, spineNode.attr (str "toc") = some tocId
              ∧ lookupStr manifest tocId = none)
          ∨ (∃ tocId ncxItem e, spineNode.attr (str "toc") = some tocId
              ∧ lookupStr manifest tocId = some ncxItem
              ∧ readEntry (build_full_path root ncxItem.href) = .error e)) →
        parse_toc readEntry xmlParse selectA manifest root spineNode = .ok []) := by
  constructor
  · unfold parse_toc
    cases tocFromNav readEntry selectA manifest root with
    | some t => exact ⟨t, rfl⟩
    | none =>
      cases tocFromNcx readEntry xmlParse manifest root spineNode with
      | some t => exact ⟨t, rfl⟩
      | none => exact ⟨[], rfl⟩
  · intro hnav hncx
    unfold parse_toc tocFromNav tocFromNcx
    simp only [hnav]
    rcases hncx with h | ⟨tocId, h1, h2⟩ | ⟨tocId, ncxItem, e, h1, h2, h3⟩
    · simp only [h]
    · simp only [h1, h2]
    · simp only [h1, h2, h3]

/-- Witness for C3 at a concrete package with no nav-marked manifest
item and no `toc` attribute on the spine. -/
theorem parse_toc_never_fails_witness :
    (∃ l, parse_toc w3ReadEntry w3XmlParse w3Select w3Manifest (str "OEBPS") w3SpineNode
      = .ok l)
    ∧ parse_toc w3ReadEntry w3XmlParse w3Select w3Manifest (str "OEBPS") w3SpineNode
      = .ok [] := by
  have h := parse_toc_never_fails w3ReadEntry w3XmlParse w3Select w3Manifest
    (str "OEBPS") w3SpineNode
  exact ⟨h.1, h.2 rfl (Or.inl rfl)⟩

/-- Claim C4: when the manifest search finds a nav-marked item, its
document reads successfully and the EPUB3 nav parser yields a
non-empty entry list, `parse_toc` returns exactly those entries — for
every spine element, every behaviour of the archive at other entries
and every behaviour of the NCX parser, so the NCX source is never
consulted. -/
theorem parse_toc_nav_precedence (readEntry : Str → Except EpubError Str)
    (xmlParse : Str → Except Str XNode)
    (selectA : Str → Except Str (List Anchor))
    (manifest : List (Str × ManifestItem)) (root : Str) (spineNode : XNode)
    (navItem : ManifestItem) (navContent : Str) (toc : List TocEntry)
    (hfind : (manifest.map Prod.snd).find?
        (fun item => item.properties == some (str "nav")) = some navItem)
    (hread : readEntry (build_full_path root navItem.href) = .ok navContent)
    (hparse : parse_nav_xhtml selectA navContent root
        (build_full_path root navItem.href) = .ok toc)
    (hne : toc ≠ []) :
    parse_toc readEntry xmlParse selectA manifest root spineNode = .ok toc := by
  unfold parse_toc tocFromNav
  simp only [hfind, hread, hparse, if_neg hne]

/-- Witness for C4 at a concrete package. -/
theorem parse_toc_nav_precedence_witness :
    parse_toc wReadEntry wXmlParse wSelect wManifest (str "OEBPS") wSpineNode = .ok wToc :=
  parse_toc_nav_precedence wReadEntry wXmlParse wSelect wManifest (str "OEBPS") wSpineNode
    wNavItem (str "navdoc") wToc rfl rfl rfl (by decide)

theorem lastOpt_cons_some {α : Type} (b : α) (t : List α) :
    ∃ x, lastOpt (b :: t) = some x := by
  induction t generalizing b with
  | nil => exact ⟨b, rfl⟩
  | cons c u ih => exact ih c

theorem lastOpt_cons {α : Type} (a : α) (l : List α) :
    lastOpt (a :: l) = (match lastOpt l with
      | some x => some x
      | none => some a) := by
  cases l with
  | nil => rfl
  | cons b t =>
    obtain ⟨x, hx⟩ := lastOpt_cons_some b t
    rw [show lastOpt (a :: b :: t) = lastOpt (b :: t) from rfl, hx]

theorem lastTextOr_cons (nm : Str) (c : XNode) (cs : List XNode) (prior : Option Str) :
    lastTextOr nm (c :: cs) prior
      = lastTextOr nm cs (if c.nameOf = nm then c.textOf else prior) := by
  unfold lastTextOr
  by_cases h : c.nameOf = nm
  · rw [List.filterMap_cons]
    simp only [if_pos h]
    rw [lastOpt_cons]
    cases lastOpt (cs.filterMap (fun c => if c.nameOf = nm then some c.textOf else none)) <;> rfl
  · rw [List.filterMap_cons]
    simp only [if_neg h]

theorem metadataStep_title (md : Metadata) (c : XNode) :
    (metadataStep md c).title = (if c.nameOf = str "title" then c.textOf else md.title) := by
  by_cases h : c.nameOf = str "title"
  · conv_rhs => rw [if_pos h]
    unfold metadataStep
    rw [if_pos h]
  · conv_rhs => rw [if_neg h]
    unfold metadataStep
    split_ifs <;> rfl

theorem metadataStep_creator (md : Metadata) (c : XNode) :
    (metadataStep md c).creator = (if c.nameOf = str "creator" then c.textOf else md.creator) := by
  by_cases h : c.nameOf = str "creator"
  · conv_rhs => rw [if_pos h]
    unfold metadataStep
    rw [if_neg (show ¬ c.nameOf = str "title" by rw [h]; decide), if_pos h]
  · conv_rhs => rw [if_neg h]
    unfold metadataStep
    split_ifs <;> rfl

theorem metadataStep_language (md : Metadata) (c : XNode) :
    (metadataStep md c).language
      = (if c.nameOf = str "language" then c.textOf else md.language) := by
  by_cases h : c.nameOf = str "language"
  · conv_rhs => rw [if_pos h]
    unfold metadataStep
    rw [if_neg (show ¬ c.nameOf = str "title" by rw [h]; decide),
      if_neg (show ¬ c.nameOf = str "creator" by rw [h]; decide), if_pos h]
  · conv_rhs => rw [if_neg h]
    unfold metadataStep
    split_ifs <;> rfl

theorem metadataStep_identifier (md : Metadata) (c : XNode) :
    (metadataStep md c).identifier
      = (if c.nameOf = str "identifier" then c.textOf else md.identifier) := by
  by_cases h : c.nameOf = str "identifier"
  · conv_rhs => rw [if_pos h]
    unfold metadataStep
    rw [if_neg (show ¬ c.nameOf = str "title" by rw [h]; decide),
      if_neg (show ¬ c.nameOf = str "creator" by rw [h]; decide),
      if_neg (show ¬ c.nameOf = str "language" by rw [h]; decide), if_pos h]
  · conv_rhs => rw [if_neg h]
    unfold metadataStep
    split_ifs <;> rfl

theorem metadataStep_publisher (md : Metadata) (c : XNode) :
    (metadataStep md c).publisher
      = (if c.nameOf = str "publisher" then c.textOf else md.publisher) := by
  by_cases h : c.nameOf = str "publisher"
  · conv_rhs => rw [if_pos h]
    unfold metadataStep
    rw [if_neg (show ¬ c.nameOf = str "title" by rw [h]; decide),
      if_neg (show ¬ c.nameOf = str "creator" by rw [h]; decide),
      if_neg (show ¬ c.nameOf = str "language" by rw [h]; decide),
      if_neg (show ¬ c.nameOf = str "identifier" by rw [h]; decide), if_pos h]
  · conv_rhs => rw [if_neg h]
    unfold metadataStep
    split_ifs <;> rfl

theorem metadataStep_date (md : Metadata) (c : XNode) :
    (metadataStep md c).date = (if c.nameOf = str "date" then c.textOf else md.date) := by
  by_cases h : c.nameOf = str "date"
  · conv_rhs => rw [if_pos h]
    unfold metadataStep
    rw [if_neg (show ¬ c.nameOf = str "title" by rw [h]; decide),
      if_neg (show ¬ c.nameOf = str "creator" by rw [h]; decide),
      if_neg (show ¬ c.nameOf = str "language" by rw [h]; decide),
      if_neg (show ¬ c.nameOf = str "identifier" by rw [h]; decide),
      if_neg (show ¬ c.nameOf = str "publisher" by rw [h]; decide), if_pos h]
  · conv_rhs => rw [if_neg h]
    unfold metadataStep
    split_ifs <;> rfl

theorem foldl_metadataStep (cs : List XNode) : ∀ md : Metadata,
    cs.foldl metadataStep md =
      { title := lastTextOr (str "title") cs md.title,
        creator := lastTextOr (str "creator") cs md.creator,
        language := lastTextOr (str "language") cs md.language,
        identifier := lastTextOr (str "identifier") cs md.identifier,
        publisher := lastTextOr (str "publisher") cs md.publisher,
        date := lastTextOr (str "date") cs md.date } := by
  induction cs with
  | nil => intro md; rfl
  | cons c cs ih =>
    intro md
    rw [List.foldl_cons, ih (metadataStep md c)]
    rw [lastTextOr_cons, lastTextOr_cons, lastTextOr_cons, lastTextOr_cons,
      lastTextOr_cons, lastTextOr_cons]
    rw [metadataStep_title, metadataStep_creator, metadataStep_language,
      metadataStep_identifier, metadataStep_publisher, metadataStep_date]

/-- Claim C7 (amended): `Metadata::parse` never fails, ignores
namespace prefixes (it matches on local names) and unrecognized
elements, and each of the six fields holds the text of the LAST child
element with that local name — every occurrence overwrites the field,
so with several `title` children the last one wins, not the first. -/
theorem metadata_parse_last_occurrence (node : XNode) :
    Metadata.parse node = .ok
      { title := lastTextOr (str "title") ((node.childList).filter XNode.isElem) none,
        creator := lastTextOr (str "creator") ((node.childList).filter XNode.isElem) none,
        language := lastTextOr (str "language") ((node.childList).filter XNode.isElem) none,
        identifier := lastTextOr (str "identifier") ((node.childList).filter XNode.isElem) none,
        publisher := lastTextOr (str "publisher") ((node.childList).filter XNode.isElem) none,
        date := lastTextOr (str "date") ((node.childList).filter XNode.isElem) none } := by
  unfold Metadata.parse
  rw [foldl_metadataStep]

/-- Counterexample to C7 as stated: with two `title` children holding
"A" then "B", the parsed title is "B" (the last), not "A" (the
first). -/
theorem metadata_parse_not_first_occurrence :
    Metadata.parse mdNodeTwoTitles
      = .ok { title := some (str "B"), creator := none, language := none,
              identifier := none, publisher := none, date := none }
    ∧ ¬ (some (str "B") = some (str "A")) := by
  refine ⟨rfl, by decide⟩

theorem splitSlash_ne_nil (s : Str) : splitSlash s ≠ [] := by
  cases s with
  | nil => simp [splitSlash]
  | cons c cs =>
    unfold splitSlash
    by_cases h : c = '/'
    · rw [if_pos h]; simp
    · rw [if_neg h]
      cases splitSlash cs <;> simp

theorem splitSlash_slash_cons (cs : Str) : splitSlash ('/' :: cs) = [] :: splitSlash cs := by
  simp [splitSlash]

theorem splitSlash_cons_eq (c : Char) (cs : Str) (h : ¬ c = '/')
    (r : Str) (rs : List Str) (he : splitSlash cs = r :: rs) :
    splitSlash (c :: cs) = (c :: r) :: rs := by
  unfold splitSlash
  rw [if_neg h, he]

theorem mem_splitSlash (s : Str) : ∀ r ∈ splitSlash s, '/' ∉ r ∧ ∀ c ∈ r, c ∈ s := by
  induction s with
  | nil =>
    intro r hr
    simp only [splitSlash, List.mem_singleton] at hr
    subst hr
    simp
  | cons c cs ih =>
    intro r hr
    by_cases h : c = '/'
    · subst h
      rw [splitSlash_slash_cons cs] at hr
      rcases List.mem_cons.mp hr with h0 | h0
      · subst h0; simp
      · obtain ⟨h1, h2⟩ := ih r h0
        exact ⟨h1, fun x hx => List.mem_cons_of_mem _ (h2 x hx)⟩
    · obtain ⟨r0, rs0, he⟩ := List.exists_cons_of_ne_nil (splitSlash_ne_nil cs)
      rw [splitSlash_cons_eq c cs h r0 rs0 he] at hr
      rcases List.mem_cons.mp hr with h0 | h0
      · subst h0
        have hr0 : r0 ∈ splitSlash cs := by rw [he]; exact List.mem_cons_self _ _
        obtain ⟨h1, h2⟩ := ih r0 hr0
        constructor
        · intro hmem
          rcases List.mem_cons.mp hmem with h3 | h3
          · exact h h3.symm
          · exact h1 h3
        · intro x hx
          rcases List.mem_cons.mp hx with h3 | h3
          · subst h3; exact List.mem_cons_self _ _
          · exact List.mem_cons_of_mem _ (h2 x h3)
      · have hr0 : r ∈ splitSlash cs := by rw [he]; exact List.mem_cons_of_mem _ h0
        obtain ⟨h1, h2⟩ := ih r hr0
        exact ⟨h1, fun x hx => List.mem_cons_of_mem _ (h2 x hx)⟩

theorem splitSlash_no_slash (a : Str) (h : '/' ∉ a) : splitSlash a = [a] := by
  induction a with
  | nil => rfl
  | cons x xs ih =>
    have hx : ¬ x = '/' := fun he => h (he ▸ List.mem_cons_self _ _)
    have hxs : '/' ∉ xs := fun hm => h (List.mem_cons_of_mem _ hm)
    exact splitSlash_cons_eq x xs hx xs [] (ih hxs)

theorem splitSlash_append_slash (a t : Str) (h : '/' ∉ a) :
    splitSlash (a ++ '/' :: t) = a :: splitSlash t := by
  induction a with
  | nil => exact splitSlash_slash_cons t
  | cons x xs ih =>
    have hx : ¬ x = '/' := fun he => h (he ▸ List.mem_cons_self _ _)
    have hxs : '/' ∉ xs := fun hm => h (List.mem_cons_of_mem _ hm)
    exact splitSlash_cons_eq x (xs ++ '/' :: t) hx xs (splitSlash t) (ih hxs)

theorem splitSlash_joinSlash (comps : List Str) (hne : comps ≠ [])
    (h : ∀ r ∈ comps, '/' ∉ r) : splitSlash (joinSlash comps) = comps := by
  induction comps with
  | nil => exact absurd rfl hne
  | cons a rest ih =>
    cases rest with
    | nil =>
      show splitSlash (joinSlash [a]) = [a]
      exact splitSlash_no_slash a (h a (List.mem_cons_self _ _))
    | cons b t =>
      show splitSlash (a ++ '/' :: joinSlash (b :: t)) = a :: b :: t
      rw [splitSlash_append_slash a (joinSlash (b :: t)) (h a (List.mem_cons_self _ _))]
      rw [ih (by simp) (fun r hr => h r (List.mem_cons_of_mem _ hr))]

theorem foldl_collapseStep_good (comps : List Str)
    (h : ∀ c ∈ comps, c ≠ [] ∧ c ≠ ['.'] ∧ c ≠ ['.', '.']) :
    ∀ acc, comps.foldl collapseStep acc = comps.reverse ++ acc := by
  induction comps with
  | nil => intro acc; rfl
  | cons c cs ih =>
    intro acc
    obtain ⟨h1, h2, h3⟩ := h c (List.mem_cons_self _ _)
    have hstep : collapseStep acc c = c :: acc := by
      unfold collapseStep
      rw [if_neg (by simp [h1, h2]), if_neg h3]
    rw [List.foldl_cons, hstep, ih (fun x hx => h x (List.mem_cons_of_mem _ hx)) (c :: acc)]
    simp

theorem mem_tail_mem {α : Type} (l : List α) (x : α) (h : x ∈ l.tail) : x ∈ l := by
  cases l with
  | nil => exact absurd h (by simp)
  | cons a t => exact List.mem_cons_of_mem _ h

theorem foldl_collapseStep_mem (comps : List Str)
    (hcomps : ∀ c ∈ comps, '/' ∉ c ∧ '\\' ∉ c) :
    ∀ acc, (∀ c ∈ acc, goodSeg c) →
      ∀ c ∈ comps.foldl collapseStep acc, goodSeg c := by
  induction comps with
  | nil => intro acc hacc c hc; exact hacc c hc
  | cons c0 cs ih =>
    intro acc hacc c hc
    rw [List.foldl_cons] at hc
    refine ih (fun x hx => hcomps x (List.mem_cons_of_mem _ hx)) (collapseStep acc c0) ?_ c hc
    intro x hx
    unfold collapseStep at hx
    by_cases hb1 : c0 = [] ∨ c0 = ['.']
    · rw [if_pos hb1] at hx; exact hacc x hx
    · rw [if_neg hb1] at hx
      by_cases hb2 : c0 = ['.', '.']
      · rw [if_pos hb2] at hx
        by_cases hb3 : acc ≠ [] ∧ acc.head? ≠ some ['.', '.']
        · rw [if_pos hb3] at hx; exact hacc x (mem_tail_mem acc x hx)
        · rw [if_neg hb3] at hx; exact hacc x hx
      · rw [if_neg hb2] at hx
        rcases List.mem_cons.mp hx with h0 | h0
        · subst h0
          obtain ⟨hs, hbs⟩ := hcomps x (List.mem_cons_self _ _)
          push_neg at hb1
          exact ⟨hb1.1, hb1.2, hb2, hs, hbs⟩
        · exact hacc x h0

theorem mem_joinSlash (comps : List Str) (c : Char) (h : c ∈ joinSlash comps) :
    c = '/' ∨ ∃ r ∈ comps, c ∈ r := by
  induction comps with
  | nil => exact absurd h (by simp [joinSlash])
  | cons a rest ih =>
    cases rest with
    | nil => exact Or.inr ⟨a, List.mem_cons_self _ _, h⟩
    | cons b t =>
      rw [show joinSlash (a :: b :: t) = a ++ '/' :: joinSlash (b :: t) from rfl] at h
      rcases List.mem_append.mp h with h0 | h0
      · exact Or.inr ⟨a, List.mem_cons_self _ _, h0⟩
      · rcases List.mem_cons.mp h0 with h1 | h1
        · exact Or.inl h1
        · rcases ih h1 with h2 | ⟨r, hr, hcr⟩
          · exact Or.inl h2
          · exact Or.inr ⟨r, List.mem_cons_of_mem _ hr, hcr⟩

theorem map_no_backslash (s : Str) (h : '\\' ∉ s) :
    s.map (fun c => if c = '\\' then '/' else c) = s := by
  induction s with
  | nil => rfl
  | cons x xs ih =>
    have hx : ¬ x = '\\' := fun he => h (he ▸ List.mem_cons_self _ _)
    have hxs : '\\' ∉ xs := fun hm => h (List.mem_cons_of_mem _ hm)
    rw [List.map_cons, if_neg hx, ih hxs]

theorem no_backslash_after_map (p : Str) :
    '\\' ∉ p.map (fun c => if c = '\\' then '/' else c) := by
  intro h
  obtain ⟨c, _hc, he⟩ := List.mem_map.mp h
  by_cases hb : c = '\\'
  · rw [if_pos hb] at he; exact absurd he (by decide)
  · rw [if_neg hb] at he; exact hb he

theorem joinSlash_head (c0 : Str) (rest : List Str) (h : c0 ≠ []) :
    (joinSlash (c0 :: rest)).head? = c0.head? := by
  obtain ⟨x, xs, rfl⟩ := List.exists_cons_of_ne_nil h
  cases rest <;> rfl

/-- The body of `normalize_path_simple`, exposed as an equation. -/
theorem normalize_path_simple_eq (p : Str) :
    normalize_path_simple p =
      (if ((splitSlash (p.map (fun c => if c = '\\' then '/' else c))).foldl
            collapseStep []).reverse = []
       then (if p.head? = some '/' then ['/'] else [])
       else (if p.head? = some '/' then (['/'] : Str) else [])
         ++ joinSlash ((splitSlash (p.map (fun c => if c = '\\' then '/' else c))).foldl
              collapseStep []).reverse) := rfl

/-- Any string of the shape produced by `normalize_path_simple`
(an optional leading slash plus good segments joined by slashes) is a
fixed point of `normalize_path_simple`. -/
theorem normalize_fixed (comps : List Str) (pre : Str)
    (hgood : ∀ c ∈ comps, goodSeg c) (hpre : pre = [] ∨ pre = ['/']) :
    normalize_path_simple (if comps = [] then pre else pre ++ joinSlash comps)
      = (if comps = [] then pre else pre ++ joinSlash comps) := by
  by_cases hc : comps = []
  · rw [if_pos hc]
    rcases hpre with rfl | rfl
    · decide
    · decide
  · rw [if_neg hc]
    obtain ⟨c0, rest, rfl⟩ := List.exists_cons_of_ne_nil hc
    have h0 := hgood c0 (List.mem_cons_self _ _)
    have hnoslash : ∀ r ∈ c0 :: rest, '/' ∉ r := fun r hr => (hgood r hr).2.2.2.1
    have hnb : '\\' ∉ pre ++ joinSlash (c0 :: rest) := by
      intro hmem
      rcases List.mem_append.mp hmem with h1 | h1
      · rcases hpre with rfl | rfl
        · exact absurd h1 (by simp)
        · exact absurd h1 (by decide)
      · rcases mem_joinSlash _ _ h1 with h2 | ⟨r, hr, hcr⟩
        · exact absurd h2 (by decide)
        · exact (hgood r hr).2.2.2.2 hcr
    have hmap : (pre ++ joinSlash (c0 :: rest)).map (fun c => if c = '\\' then '/' else c)
        = pre ++ joinSlash (c0 :: rest) := map_no_backslash _ hnb
    have hsplit_join : splitSlash (joinSlash (c0 :: rest)) = c0 :: rest :=
      splitSlash_joinSlash _ (by simp) hnoslash
    have hgood' : ∀ c ∈ c0 :: rest, c ≠ [] ∧ c ≠ ['.'] ∧ c ≠ ['.', '.'] :=
      fun c hcm => ⟨(hgood c hcm).1, (hgood c hcm).2.1, (hgood c hcm).2.2.1⟩
    rcases hpre with rfl | rfl
    · -- no leading slash
      have hhead : ¬ ([] ++ joinSlash (c0 :: rest)).head? = some '/' := by
        rw [List.nil_append, joinSlash_head c0 rest h0.1]
        obtain ⟨x, xs, rfl⟩ := List.exists_cons_of_ne_nil h0.1
        intro he
        have hx : x = '/' := by
          simpa using he
        exact h0.2.2.2.1 (hx ▸ List.mem_cons_self _ _)
      rw [normalize_path_simple_eq, hmap]
      rw [List.nil_append] at hhead ⊢
      rw [hsplit_join]
      rw [foldl_collapseStep_good _ hgood' []]
      rw [List.append_nil, List.reverse_reverse]
      rw [if_neg hc, if_neg hhead]
      rw [List.nil_append]
    · -- leading slash
      have hsplit : splitSlash ('/' :: joinSlash (c0 :: rest))
          = [] :: c0 :: rest := by
        rw [splitSlash_slash_cons, hsplit_join]
      have hhead : (['/'] ++ joinSlash (c0 :: rest)).head? = some '/' := rfl
      rw [normalize_path_simple_eq, hmap]
      rw [show (['/'] ++ joinSlash (c0 :: rest) : Str) = '/' :: joinSlash (c0 :: rest) from rfl]
      rw [hsplit]
      rw [show ([] :: c0 :: rest).foldl collapseStep []
          = (c0 :: rest).foldl collapseStep [] from rfl]
      rw [foldl_collapseStep_good _ hgood' []]
      rw [List.append_nil, List.reverse_reverse]
      rw [if_neg hc]
      rw [show ('/' :: joinSlash (c0 :: rest) : Str).head? = some '/' from rfl]
      rw [if_pos rfl]
      rfl

/-- Claim C9: `normalize_path_simple` is idempotent:
`normalize(normalize(p)) = normalize(p)` for every input string. -/
theorem normalize_path_simple_idem (p : Str) :
    normalize_path_simple (normalize_path_simple p) = normalize_path_simple p := by
  have hgood : ∀ c ∈ ((splitSlash (p.map (fun c => if c = '\\' then '/' else c))).foldl
      collapseStep []).reverse, goodSeg c := by
    intro c hcm
    rw [List.mem_reverse] at hcm
    refine foldl_collapseStep_mem _ ?_ [] (by simp) c hcm
    intro r hr
    obtain ⟨h1, h2⟩ := mem_splitSlash _ r hr
    exact ⟨h1, fun hbm => no_backslash_after_map p (h2 '\\' hbm)⟩
  have hpre : (if p.head? = some '/' then (['/'] : Str) else []) = []
      ∨ (if p.head? = some '/' then (['/'] : Str) else []) = ['/'] := by
    by_cases h : p.head? = some '/'
    · exact Or.inr (if_pos h)
    · exact Or.inl (if_neg h)
  rw [normalize_path_simple_eq p]
  exact normalize_fixed _ _ hgood hpre

theorem navPointEntryList_map_href (node : XNode) (base root : Str) :
    (navPointEntryList node base root).map TocEntry.href
      = (navPointSrc node).map (fun s => build_full_path root (resolve_relative_path base s)) := by
  unfold navPointEntryList navPointSrc
  cases hfind : (node.childList).find? (fun c => c.nameOf == str "content") with
  | none => rfl
  | some contentNode =>
    dsimp only
    cases hattr : contentNode.attr (str "src") with
    | none => rfl
    | some srcAttr =>
      dsimp only
      by_cases hcond : ¬ (navPointLabel node = []) ∧ ¬ (srcAttr = [])
      · rw [if_pos hcond, if_pos hcond]; rfl
      · rw [if_neg hcond, if_neg hcond]; rfl

mutual
theorem navPointContrib_map_href (base root : Str) :
    ∀ node : XNode, (navPointContrib base root node).map TocEntry.href
      = (navPointSrcsNode node).map
          (fun s => build_full_path root (resolve_relative_path base s))
  | .textNode _ => rfl
  | .element n attrs cs => by
    unfold navPointContrib navPointSrcsNode
    by_cases h : n = str "navPoint"
    · rw [if_pos h, if_pos h, List.map_append, List.map_append,
        navPointEntryList_map_href, navPointsList_map_href base root cs]
    · rw [if_neg h, if_neg h]; rfl
theorem navPointsList_map_href (base root : Str) :
    ∀ xs : XNodes, (navPointsList base root xs).map TocEntry.href
      = (navPointSrcsList xs).map
          (fun s => build_full_path root (resolve_relative_path base s))
  | .nil => rfl
  | .cons x xs => by
    unfold navPointsList navPointSrcsList
    rw [List.map_append, List.map_append, navPointContrib_map_href base root x,
      navPointsList_map_href base root xs]
end

/-- Claim C1 (amended): href resolution does happen at parse time, but
not with the claimed formula.  (i) Every TocEntry href produced by the
NCX walk is `build_full_path root (resolve_relative_path d s)` for the
corresponding raw src `s` — the root directory is prepended even
though the document directory `d` is already root-relative, so plain
relative srcs are double-rooted.  (ii) Manifest hrefs are NOT
re-rooted at parse time: `parse_manifest` stores each `href` attribute
verbatim (they are joined with the root directory at read time). -/
theorem href_resolution_at_parse_time :
    (∀ (parent : XNode) (base root : Str),
      (parse_navpoints parent base root).map TocEntry.href
        = (parse_navpoints_srcs parent).map
            (fun s => build_full_path root (resolve_relative_path base s)))
    ∧ (∀ (nodes : List XNode) (acc m : List (Str × ManifestItem)),
        parse_manifest_items nodes acc = .ok m →
        ∀ pr ∈ m, pr ∈ acc
          ∨ ∃ n ∈ nodes, n.attr (str "href") = some pr.2.href
              ∧ n.attr (str "id") = some pr.2.id) := by
  constructor
  · intro parent base root
    unfold parse_navpoints parse_navpoints_srcs
    cases parent with
    | element nm attrs cs => exact navPointsList_map_href base root cs
    | textNode s => rfl
  · intro nodes
    induction nodes with
    | nil =>
      intro acc m hok pr hpr
      unfold parse_manifest_items at hok
      cases hok
      exact Or.inl hpr
    | cons n rest ih =>
      intro acc m hok pr hpr
      unfold parse_manifest_items at hok
      by_cases hitem : n.nameOf = str "item"
      · rw [if_pos hitem] at hok
        cases hid : n.attr (str "id") with
        | none => rw [hid] at hok; cases n.attr (str "href") <;>
            cases n.attr (str "media-type") <;> exact absurd hok (by simp)
        | some id =>
          cases hhref : n.attr (str "href") with
          | none => rw [hid, hhref] at hok; cases n.attr (str "media-type") <;>
              exact absurd hok (by simp)
          | some href =>
            cases hmt : n.attr (str "media-type") with
            | none => rw [hid, hhref, hmt] at hok; exact absurd hok (by simp)
            | some mt =>
              rw [hid, hhref, hmt] at hok
              rcases ih _ m hok pr hpr with hacc | ⟨n', hn', h1, h2⟩
              · rcases List.mem_cons.mp hacc with h0 | h0
                · subst h0
                  exact Or.inr ⟨n, List.mem_cons_self _ _, hhref, hid⟩
                · exact Or.inl h0
              · exact Or.inr ⟨n', List.mem_cons_of_mem _ hn', h1, h2⟩
      · rw [if_neg hitem] at hok
        rcases ih _ m hok pr hpr with hacc | ⟨n', hn', h1, h2⟩
        · exact Or.inl hacc
        · exact Or.inr ⟨n', List.mem_cons_of_mem _ hn', h1, h2⟩

/-- Witness for C1's amended theorem: the NCX equation at the sample
navMap, and the verbatim-storage disjunction at a concrete one-item
manifest. -/
theorem href_resolution_at_parse_time_witness :
    (parse_navpoints sampleNavMap (parentDir (str "OEBPS/toc.ncx")) (str "OEBPS")).map TocEntry.href
      = (parse_navpoints_srcs sampleNavMap).map
          (fun s => build_full_path (str "OEBPS")
            (resolve_relative_path (parentDir (str "OEBPS/toc.ncx")) s))
    ∧ ((str "ch1",
        { id := str "ch1", href := str "ch1.xhtml",
          media_type := str "application/xhtml+xml",
          properties := none : ManifestItem }) ∈
          ([] : List (Str × ManifestItem))
        ∨ ∃ n ∈ manifestNodeC1.childList,
            n.attr (str "href") = some (str "ch1.xhtml")
              ∧ n.attr (str "id") = some (str "ch1")) := by
  constructor
  · exact href_resolution_at_parse_time.1 sampleNavMap (parentDir (str "OEBPS/toc.ncx")) (str "OEBPS")
  · exact href_resolution_at_parse_time.2 manifestNodeC1.childList []
      [(str "ch1",
        { id := str "ch1", href := str "ch1.xhtml",
          media_type := str "application/xhtml+xml", properties := none })]
      rfl _ (List.mem_cons_self _ _)

/-- Counterexample to C1 as stated: for an NCX at `OEBPS/toc.ncx`
(directory `d = OEBPS`) with src `ch1.xhtml`, the stored href is
`OEBPS/OEBPS/ch1.xhtml`, not the claimed
`normalize(resolve(d, s)) = OEBPS/ch1.xhtml`; and the manifest stores
the raw href `ch1.xhtml`, not a root-relative `OEBPS/ch1.xhtml`. -/
theorem href_resolution_counterexample :
    (parse_navpoints sampleNavMap (parentDir (str "OEBPS/toc.ncx")) (str "OEBPS")).map TocEntry.href
      = [str "OEBPS/OEBPS/ch1.xhtml"]
    ∧ normalize_path_simple
        (resolve_relative_path (parentDir (str "OEBPS/toc.ncx")) (str "ch1.xhtml"))
      = str "OEBPS/ch1.xhtml"
    ∧ ¬ (str "OEBPS/OEBPS/ch1.xhtml" = str "OEBPS/ch1.xhtml")
    ∧ parse_manifest manifestNodeC1
      = .ok [(str "ch1",
          { id := str "ch1", href := str "ch1.xhtml",
            media_type := str "application/xhtml+xml", properties := none })]
    ∧ ¬ (str "ch1.xhtml" = str "OEBPS/ch1.xhtml") := by
  refine ⟨by decide, by decide, by decide, rfl, by decide⟩

end EpubReader
